import Mathlib

/-!
Verification of the benchmark-result normalization and reporting pipeline
of the OS-Project HDFS repository, shallowly embedded in Lean 4.

The embedded functions mirror, definition by definition:
* `detect_experiment_type`         — src/experiments/storage_virtualization/plot-storage-virtualization.py
* `plot_storage_dirs` / `plot_block_scaling` / `plot_memory_monitor` — same file
* `main` of plot-blocksize-results.py (normalization and optimal selection)
* `read_samples` — src/experiments/mini_dfs_cluster/plot_memory.py
* `read_combined_results` consumers (`plot_combined`, `plot_individual`,
  `plot_heatmap`, `plot_speedup`, `main`) — src/experiments/wordcount/plot-multinode-results.py

Numeric cells are modelled exactly (ℚ for floats, ℤ for ints); Python's
`int()` truncation toward zero is modelled by `pyTrunc`; fallible Python
code (exceptions such as KeyError / ValueError / IndexError) is modelled
with `Except String`.
-/

/-- A raw CSV cell: either a string or a number (pandas reads a column as
numeric when every entry parses; individual cells are one or the other). -/
inductive Cell where
  | str (s : String)
  | num (q : ℚ)
deriving DecidableEq, Repr

/-- Python `int()` truncation toward zero of a rational (CPython float→int). -/
def pyTrunc (q : ℚ) : ℤ := if 0 ≤ q then ⌊q⌋ else ⌈q⌉

/-- Decimal value of one character, `none` for non-digits. -/
def digitVal (c : Char) : Option ℕ :=
  if c = '0' then some 0 else if c = '1' then some 1
  else if c = '2' then some 2 else if c = '3' then some 3
  else if c = '4' then some 4 else if c = '5' then some 5
  else if c = '6' then some 6 else if c = '7' then some 7
  else if c = '8' then some 8 else if c = '9' then some 9
  else none

/-- Parse a non-empty run of decimal digits into a natural number. -/
def parseDigits (l : List Char) : Option ℕ :=
  if l.isEmpty then none
  else l.foldl (fun acc c => acc.bind (fun n => (digitVal c).map (fun d => 10 * n + d)))
    (some 0)

/-- Python `int(str)` on a CSV cell: optional sign followed by digits only
(a fractional string such as "1.5" fails; the benchmark CSV cells carry no
surrounding whitespace, so stripping is not modelled). -/
def pyIntStr (s : String) : Option ℤ :=
  match s.data with
  | '-' :: rest => (parseDigits rest).map (fun n => -(n : ℤ))
  | '+' :: rest => (parseDigits rest).map (fun n => (n : ℤ))
  | l => (parseDigits l).map (fun n => (n : ℤ))

/-- Parse an unsigned decimal literal: integer part, optional fractional
part (`"5."`, `".5"` and `"5.25"` are all Python-accepted forms). -/
def parseDecimal (l : List Char) : Option ℚ :=
  let intPart := l.takeWhile (fun c => c ≠ '.')
  match l.dropWhile (fun c => c ≠ '.') with
  | [] => (parseDigits intPart).map (fun n => (n : ℚ))
  | _ :: frac =>
    if frac.contains '.' then none
    else if intPart.isEmpty && frac.isEmpty then none
    else
      let ip : Option ℕ := if intPart.isEmpty then some 0 else parseDigits intPart
      let fp : Option ℕ := if frac.isEmpty then some 0 else parseDigits frac
      match ip, fp with
      | some i, some f => some ((i : ℚ) + (f : ℚ) / (10 : ℚ) ^ frac.length)
      | _, _ => none

/-- Python `float(str)` restricted to plain signed decimal literals;
exponent forms are out of scope for the benchmark CSVs. -/
def pyFloatStr (s : String) : Option ℚ :=
  match s.data with
  | '-' :: rest => (parseDecimal rest).map (fun v => -v)
  | '+' :: rest => parseDecimal rest
  | l => parseDecimal l

/-- `pd.to_numeric(.., errors='coerce')` on one cell: numbers pass through,
strings are parsed as floats, everything else becomes NaN (`none`). -/
def toNumeric (c : Cell) : Option ℚ :=
  match c with
  | .num q => some q
  | .str s => pyFloatStr s

/-- `astype(int)` on one cell: numeric cells truncate toward zero,
string cells must parse as a Python int, anything else raises. -/
def astypeInt (c : Cell) : Option ℤ :=
  match c with
  | .num q => some (pyTrunc q)
  | .str s => pyIntStr s

/-- The experiment kinds returned by `detect_experiment_type` in
plot-storage-virtualization.py (the only schema detector in the code). -/
inductive ExpType where
  | storage_dirs
  | block_scaling
  | memory_monitor
  | unknown
deriving DecidableEq, Repr

/-- `detect_experiment_type(df)` of plot-storage-virtualization.py:
classify a table from its column-name set alone. -/
def detect_experiment_type (columns : List String) : ExpType :=
  if "num_dirs" ∈ columns then .storage_dirs
  else if "target_blocks" ∈ columns ∨ "block_size_exp" ∈ columns then .block_scaling
  else if "heap_used_mb" ∈ columns ∧ "timestamp" ∈ columns then .memory_monitor
  else .unknown

/-- C2: any table whose columns contain `num_dirs` is classified
`storage_dirs` (the code's name for StorageDirScaling), whatever the other
columns are — the priority-1 rule fires first. -/
theorem detect_num_dirs_storage_dirs (columns : List String)
    (h : "num_dirs" ∈ columns) :
    detect_experiment_type columns = .storage_dirs := by
  simp [detect_experiment_type, h]

/-- Witness for C2: a concrete column set containing `num_dirs` together
with markers of every other kind is still classified `storage_dirs`. -/
theorem detect_num_dirs_storage_dirs_witness :
    "num_dirs" ∈ ["num_dirs", "target_blocks", "block_size_exp",
      "heap_used_mb", "timestamp", "block_size_bytes"] ∧
    detect_experiment_type ["num_dirs", "target_blocks", "block_size_exp",
      "heap_used_mb", "timestamp", "block_size_bytes"] = .storage_dirs :=
  ⟨by decide, detect_num_dirs_storage_dirs _ (by decide)⟩

/-- Counterexample for C9: a table with exactly the block-size benchmark
columns (`block_size_bytes`, `block_size_human`, plus the measured columns)
is classified `unknown` by `detect_experiment_type`, not as a block-size
benchmark — the function has no priority-4 rule at all. -/
theorem detect_blocksize_cols_unknown_cex :
    detect_experiment_type
      ["block_size_bytes", "block_size_human", "runtime_seconds", "num_splits"]
      = .unknown := by
  decide

/-- C9 (amended): any column set containing `block_size_bytes` or
`block_size_human` but none of the three implemented marker groups
(`num_dirs`; `target_blocks`/`block_size_exp`; `heap_used_mb`+`timestamp`)
is classified `unknown`: the detector implements only priority rules 1–3,
and block-size benchmark tables are consumed by the dedicated
plot-blocksize-results.py script without any classification step. -/
theorem detect_blocksize_cols_unknown (columns : List String)
    (_hbs : "block_size_bytes" ∈ columns ∨ "block_size_human" ∈ columns)
    (h1 : "num_dirs" ∉ columns)
    (h2 : "target_blocks" ∉ columns) (h3 : "block_size_exp" ∉ columns)
    (h4 : ¬("heap_used_mb" ∈ columns ∧ "timestamp" ∈ columns)) :
    detect_experiment_type columns = .unknown := by
  simp [detect_experiment_type, h1, h2, h3, h4]

/-- Witness for C9 (amended) at the concrete block-size column set. -/
theorem detect_blocksize_cols_unknown_witness :
    ("block_size_bytes" ∈ ["block_size_bytes", "block_size_human"] ∨
      "block_size_human" ∈ ["block_size_bytes", "block_size_human"]) ∧
    detect_experiment_type ["block_size_bytes", "block_size_human"] = .unknown :=
  ⟨Or.inl (by decide),
    detect_blocksize_cols_unknown _ (Or.inl (by decide))
      (by decide) (by decide) (by decide) (by decide)⟩

/-- The lambda at plot-blocksize-results.py:95/:99 synthesising the missing
`block_size_exp` column from a byte count:
`lambda x: int(math.log2(x)) if x > 0 else 0`, embedded for integer byte
counts under exact arithmetic (for x ≥ 1, `int(log2 x)` is `⌊log2 x⌋`,
which is `Nat.log2`). -/
def synth_block_size_exp (b : ℤ) : ℤ :=
  if 0 < b then (Nat.log2 b.toNat : ℤ) else 0

/-- C3: the synthesised exponent is `⌊log2 b⌋` for every positive byte count
`b` — characterised by `2 ^ e ≤ b < 2 ^ (e+1)` — and is 0 for every `b ≤ 0`
(no exception); in particular 1 ↦ 0, 1024 ↦ 10, 0 ↦ 0. -/
theorem synth_block_size_exp_floor_log2 (b : ℤ) :
    (0 < b →
      0 ≤ synth_block_size_exp b ∧
      (2 : ℤ) ^ (synth_block_size_exp b).toNat ≤ b ∧
      b < 2 ^ ((synth_block_size_exp b).toNat + 1)) ∧
    (b ≤ 0 → synth_block_size_exp b = 0) ∧
    synth_block_size_exp 1 = 0 ∧
    synth_block_size_exp 1024 = 10 ∧
    synth_block_size_exp 0 = 0 := by
  have h1024 : Nat.log2 1024 = 10 := by
    have h2 : (1024 : ℕ) = 2 ^ 10 := by norm_num
    rw [h2, Nat.log2_eq_log_two, Nat.log_pow (by norm_num)]
  refine ⟨fun hb => ?_, fun hb => ?_, by norm_num [synth_block_size_exp, Nat.log2],
    by norm_num [synth_block_size_exp, show Int.toNat 1024 = 1024 from rfl, h1024],
    by decide⟩
  · have hbn : b.toNat ≠ 0 := by omega
    have hlow : 2 ^ Nat.log2 b.toNat ≤ b.toNat := Nat.log2_self_le hbn
    have hhigh : b.toNat < 2 ^ (Nat.log2 b.toNat + 1) := Nat.lt_log2_self
    have hb' : (b.toNat : ℤ) = b := Int.toNat_of_nonneg (le_of_lt hb)
    refine ⟨?_, ?_, ?_⟩
    · simp [synth_block_size_exp, hb]
    · have : ((2 ^ Nat.log2 b.toNat : ℕ) : ℤ) ≤ ((b.toNat : ℕ) : ℤ) :=
        Int.ofNat_le.mpr hlow
      simpa [synth_block_size_exp, hb, hb'] using this
    · have : ((b.toNat : ℕ) : ℤ) < ((2 ^ (Nat.log2 b.toNat + 1) : ℕ) : ℤ) :=
        Int.ofNat_lt.mpr hhigh
      simpa [synth_block_size_exp, hb, hb'] using this
  · simp [synth_block_size_exp, not_lt.mpr hb]

/-- Witness for C3 at `b = 1024`: the exponent 10 satisfies the floor
characterisation `2^10 ≤ 1024 < 2^11`. -/
theorem synth_block_size_exp_floor_log2_witness :
    (0 : ℤ) < 1024 ∧
    ((2 : ℤ) ^ (synth_block_size_exp 1024).toNat ≤ 1024 ∧
      (1024 : ℤ) < 2 ^ ((synth_block_size_exp 1024).toNat + 1)) :=
  ⟨by decide, ((synth_block_size_exp_floor_log2 1024).1 (by decide)).2⟩


/-- A raw row of a block-size benchmark CSV, restricted to the two columns
plot-blocksize-results.py:101-105 normalises (`block_size_bytes` is cast
with `astype(int)`, `runtime_seconds` is sentinel-filtered and coerced). -/
structure BsRow where
  block_size_bytes : Cell
  runtime_seconds : Cell
deriving DecidableEq, Repr

/-- A normalised block-size row: the surviving raw row together with its
coerced numeric columns. -/
structure NBsRow where
  raw : BsRow
  block_size_bytes : ℤ
  runtime_seconds : ℚ
deriving DecidableEq, Repr

/-- `df['runtime_seconds'].isin(['ERROR', 'SKIPPED'])` on one cell. -/
def isSentinel (c : Cell) : Bool :=
  c = Cell.str "ERROR" ∨ c = Cell.str "SKIPPED"

/-- The coercion part of lines 102-104: a row survives with its parsed
runtime if its runtime cell is no sentinel and coerces to a number. -/
def coerceRuntime (r : BsRow) : Option (BsRow × ℚ) :=
  (toNumeric r.runtime_seconds).map (fun q => (r, q))

/-- The `astype(int)` pass of line 105 over the surviving rows: raises
`ValueError` on any unparseable `block_size_bytes` cell. -/
def astypePass : List (BsRow × ℚ) → Except String (List NBsRow)
  | [] => .ok []
  | p :: l =>
    match astypeInt p.1.block_size_bytes with
    | none => .error "ValueError"
    | some b => (astypePass l).map (fun t => ⟨p.1, b, p.2⟩ :: t)

/-- The normalisation block of plot-blocksize-results.py:101-105:
drop sentinel rows (line 102), coerce `runtime_seconds` dropping rows that
fail (`to_numeric(errors='coerce')` + `dropna`, lines 103-104), then
`astype(int)` on `block_size_bytes` (line 105). -/
def normalizeBlocksize (rows : List BsRow) : Except String (List NBsRow) :=
  astypePass ((rows.filter (fun r => ¬ isSentinel r.runtime_seconds)).filterMap coerceRuntime)

/-- One data row of the memory-usage CSV in `read_samples` of
plot_memory.py: kept when it has at least two cells and the first two
parse as Python ints. -/
def parseSampleRow (row : List String) : Option (ℤ × ℤ) :=
  if row.length < 2 then none
  else
    match pyIntStr (row.getD 0 ""), pyIntStr (row.getD 1 "") with
    | some nodes, some memory => some (nodes, memory)
    | _, _ => none

/-- `read_samples` of plot_memory.py:13-27 (applied to the rows after the
header line): the parse-or-skip loop. -/
def read_samples (rows : List (List String)) : List (ℤ × ℤ) :=
  rows.filterMap parseSampleRow

/-- Provenance-tracking form of `read_samples`, keeping the raw row beside
its parsed pair. -/
def read_samples_prov (rows : List (List String)) : List (List String × (ℤ × ℤ)) :=
  rows.filterMap (fun row => (parseSampleRow row).map (fun p => (row, p)))

/-- Any provenance-tracking `filterMap` keeps a subsequence of the input:
the sources of the survivors form a sublist of the original list. -/
theorem filterMap_prov_fst_sublist {α β : Type} (f : α → Option β) (l : List α) :
    List.Sublist ((l.filterMap (fun a => (f a).map (fun b => (a, b)))).map Prod.fst) l := by
  induction l with
  | nil => simp
  | cons a l ih =>
    cases h : f a with
    | none => simpa [List.filterMap_cons, h] using List.Sublist.cons a ih
    | some b => simpa [List.filterMap_cons, h] using List.Sublist.cons₂ a ih

/-- A `filterMap` is the second projection of its provenance-tracking form. -/
theorem filterMap_eq_prov_map_snd {α β : Type} (f : α → Option β) (l : List α) :
    l.filterMap f =
      (l.filterMap (fun a => (f a).map (fun b => (a, b)))).map Prod.snd := by
  induction l with
  | nil => simp
  | cons a l ih =>
    cases h : f a with
    | none => simpa [List.filterMap_cons, h] using ih
    | some b => simpa [List.filterMap_cons, h] using ih

/-- When the `astype(int)` pass succeeds, the result rows are exactly the
input pairs, in order, each with a successfully parsed byte count. -/
theorem astypePass_ok_spec (l : List (BsRow × ℚ)) (res : List NBsRow)
    (h : astypePass l = .ok res) :
    res.map (fun nr => (nr.raw, nr.runtime_seconds)) = l ∧
    ∀ nr ∈ res, astypeInt nr.raw.block_size_bytes = some nr.block_size_bytes := by
  induction l generalizing res with
  | nil =>
    cases h
    simp
  | cons p l ih =>
    rcases hb : astypeInt p.1.block_size_bytes with _ | b
    · rw [astypePass, hb] at h
      cases h
    · rw [astypePass, hb] at h
      rcases ht : astypePass l with e | tail
      · rw [ht] at h
        cases h
      · rw [ht] at h
        cases h
        rcases ih tail ht with ⟨ih1, ih2⟩
        refine ⟨by simp [ih1], ?_⟩
        intro nr hnr
        rcases List.mem_cons.mp hnr with rfl | hnr
        · exact hb
        · exact ih2 nr hnr

/-- `parseSampleRow` only succeeds when both leading cells parse. -/
theorem parseSampleRow_some (row : List String) (p : ℤ × ℤ)
    (h : parseSampleRow row = some p) :
    pyIntStr (row.getD 0 "") = some p.1 ∧ pyIntStr (row.getD 1 "") = some p.2 := by
  by_cases hlen : row.length < 2
  · rw [parseSampleRow, if_pos hlen] at h
    cases h
  · rw [parseSampleRow, if_neg hlen] at h
    rcases h0 : pyIntStr (row.getD 0 "") with _ | a <;>
      rcases h1 : pyIntStr (row.getD 1 "") with _ | b <;>
      rw [h0, h1] at h <;> cases h
    exact ⟨by simp [h0], by simp [h1]⟩

/-- C1: whenever the Table Normalizer produces a result, it has at most as
many rows as the input, the surviving raw rows are a subsequence of the
input (same relative order), every sentinel or coercion-failing row is
dropped, and every surviving row's numeric columns are parsed numbers —
for both the block-size normaliser (plot-blocksize-results.py:101-105) and
`read_samples` (plot_memory.py:13-27). -/
theorem normalizer_invariants (rows : List BsRow) (res : List NBsRow)
    (srows : List (List String))
    (hok : normalizeBlocksize rows = .ok res) :
    (res.length ≤ rows.length ∧
      List.Sublist (res.map NBsRow.raw) rows ∧
      (∀ nr ∈ res,
        ¬ isSentinel nr.raw.runtime_seconds ∧
        toNumeric nr.raw.runtime_seconds = some nr.runtime_seconds ∧
        astypeInt nr.raw.block_size_bytes = some nr.block_size_bytes) ∧
      (∀ r ∈ rows, isSentinel r.runtime_seconds ∨ toNumeric r.runtime_seconds = none →
        r ∉ res.map NBsRow.raw)) ∧
    ((read_samples srows).length ≤ srows.length ∧
      read_samples srows = (read_samples_prov srows).map Prod.snd ∧
      List.Sublist ((read_samples_prov srows).map Prod.fst) srows ∧
      (∀ pr ∈ read_samples_prov srows,
        pyIntStr (pr.1.getD 0 "") = some pr.2.1 ∧
        pyIntStr (pr.1.getD 1 "") = some pr.2.2)) := by
  rcases astypePass_ok_spec _ res hok with ⟨hmap, hast⟩
  have hsurv : ∀ nr ∈ res,
      ¬ isSentinel nr.raw.runtime_seconds ∧
      toNumeric nr.raw.runtime_seconds = some nr.runtime_seconds := by
    intro nr hnr
    have hmem : (nr.raw, nr.runtime_seconds) ∈
        (rows.filter (fun r => ¬ isSentinel r.runtime_seconds)).filterMap coerceRuntime := by
      rw [← hmap]
      exact List.mem_map_of_mem _ hnr
    rcases List.mem_filterMap.mp hmem with ⟨r, hrmem, hreq⟩
    rcases Option.map_eq_some'.mp hreq with ⟨q, hq, hpair⟩
    cases hpair
    exact ⟨by simpa using (List.mem_filter.mp hrmem).2, hq⟩
  have hsub : List.Sublist (res.map NBsRow.raw) rows := by
    have h1 : res.map NBsRow.raw =
        ((rows.filter (fun r => ¬ isSentinel r.runtime_seconds)).filterMap
          coerceRuntime).map Prod.fst := by
      rw [← hmap, List.map_map]
      rfl
    rw [h1]
    exact (filterMap_prov_fst_sublist
      (fun r => toNumeric r.runtime_seconds) _).trans (List.filter_sublist rows)
  refine ⟨⟨?_, hsub, ?_, ?_⟩, ?_, ?_, ?_, ?_⟩
  · simpa using hsub.length_le
  · exact fun nr hnr => ⟨(hsurv nr hnr).1, (hsurv nr hnr).2, hast nr hnr⟩
  · rintro r _hr hbad hmem
    rcases List.mem_map.mp hmem with ⟨nr, hnr, hraw⟩
    rcases hsurv nr hnr with ⟨hns, hcoe⟩
    cases hraw
    rcases hbad with hbad | hbad
    · exact hns hbad
    · rw [hbad] at hcoe
      cases hcoe
  · have hlen := (filterMap_prov_fst_sublist parseSampleRow srows).length_le
    calc (read_samples srows).length
        = (read_samples_prov srows).length := by
          rw [read_samples, filterMap_eq_prov_map_snd parseSampleRow srows]
          simp [read_samples_prov]
      _ ≤ srows.length := by simpa [read_samples_prov] using hlen
  · rw [read_samples, read_samples_prov]
    exact filterMap_eq_prov_map_snd parseSampleRow srows
  · exact filterMap_prov_fst_sublist parseSampleRow srows
  · intro pr hpr
    rcases List.mem_filterMap.mp hpr with ⟨row, _hrow, heq⟩
    rcases Option.map_eq_some'.mp heq with ⟨p, hp, hpair⟩
    cases hpair
    exact parseSampleRow_some row p hp

/-- Witness for C1: a concrete four-row block-size table (one ERROR row,
one SKIPPED row) normalises to two rows, and a concrete sample CSV with
one short and one non-numeric row keeps two. -/
theorem normalizer_invariants_witness :
    normalizeBlocksize
      [⟨.num 1024, .num (25/2)⟩, ⟨.num 2048, .str "ERROR"⟩,
        ⟨.num 4096, .str "SKIPPED"⟩, ⟨.num 16384, .num 7⟩] =
      .ok [⟨⟨.num 1024, .num (25/2)⟩, 1024, 25/2⟩,
        ⟨⟨.num 16384, .num 7⟩, 16384, 7⟩] ∧
    ([⟨⟨.num 1024, .num (25/2)⟩, 1024, 25/2⟩,
        ⟨⟨.num 16384, .num 7⟩, 16384, 7⟩] : List NBsRow).length ≤
      ([⟨.num 1024, .num (25/2)⟩, ⟨.num 2048, .str "ERROR"⟩,
        ⟨.num 4096, .str "SKIPPED"⟩, ⟨.num 16384, .num 7⟩] : List BsRow).length ∧
    (read_samples [["4", "100"], ["x"], ["oops", "5"], ["8", "200"]]).length ≤
      ([["4", "100"], ["x"], ["oops", "5"], ["8", "200"]] : List (List String)).length := by
  have hok : normalizeBlocksize
      [⟨.num 1024, .num (25/2)⟩, ⟨.num 2048, .str "ERROR"⟩,
        ⟨.num 4096, .str "SKIPPED"⟩, ⟨.num 16384, .num 7⟩] =
      .ok [⟨⟨.num 1024, .num (25/2)⟩, 1024, 25/2⟩,
        ⟨⟨.num 16384, .num 7⟩, 16384, 7⟩] := by
    rfl
  have h := normalizer_invariants _ _
    [["4", "100"], ["x"], ["oops", "5"], ["8", "200"]] hok
  exact ⟨hok, h.1.1, h.2.1⟩

/-- `series.diff().fillna(series)` of plot-storage-virtualization.py:142-143:
consecutive differences with the first entry replaced by the raw first
value (the row "compares to itself"). -/
def diff_fillna (xs : List ℚ) : List ℚ :=
  List.zipWith (fun a b => a - b) xs (0 :: xs)

/-- `.replace(0, 1)` on one delta: the documented divisor fallback. -/
def replaceZeroOne (b : ℚ) : ℚ := if b = 0 then 1 else b

/-- The per-unit delta metric of plot-storage-virtualization.py:142-144:
`bytes_per_block = (heap_delta * 1024 * 1024) / blocks_delta.replace(0, 1)`
over the `heap_delta_mb` and `actual_blocks` columns. -/
def bytes_per_block (blocks heap_deltas : List ℚ) : List ℚ :=
  List.zipWith (fun h b => h * 1024 * 1024 / replaceZeroOne b)
    (diff_fillna heap_deltas) (diff_fillna blocks)

theorem diff_fillna_length (xs : List ℚ) : (diff_fillna xs).length = xs.length := by
  simp [diff_fillna]

theorem diff_fillna_getD_zero (xs : List ℚ) (h : 0 < xs.length) :
    (diff_fillna xs).getD 0 0 = xs.getD 0 0 := by
  cases xs with
  | nil => simp at h
  | cons x l => simp [diff_fillna]

theorem diff_fillna_getD_succ (xs : List ℚ) (i : ℕ) (h : i + 1 < xs.length) :
    (diff_fillna xs).getD (i + 1) 0 = xs.getD (i + 1) 0 - xs.getD i 0 := by
  have hlen : i + 1 < (diff_fillna xs).length := by
    rw [diff_fillna_length]
    exact h
  rw [List.getD_eq_getElem _ _ hlen, List.getD_eq_getElem _ _ h,
    List.getD_eq_getElem _ _ (Nat.lt_of_succ_lt h)]
  simp only [diff_fillna]
  rw [List.getElem_zipWith]
  simp

/-- C4: the per-unit delta sequence is aligned one-to-one with the input
rows; for every pair of consecutive rows its entry is
`(Δ dependent) / (Δ independent)` — with dependent measured in bytes,
`1024 * 1024` times the `heap_delta_mb` column — except that a pair with
`Δ independent = 0` uses the divisor 1 instead (no division fault); and
the first entry compares the first row to itself, dividing its raw
dependent value by its raw independent value (again 0 replaced by 1). -/
theorem bytes_per_block_spec (blocks heaps : List ℚ)
    (hlen : blocks.length = heaps.length) :
    (bytes_per_block blocks heaps).length = blocks.length ∧
    (∀ i, i + 1 < blocks.length →
      (bytes_per_block blocks heaps).getD (i + 1) 0 =
        (if blocks.getD (i + 1) 0 - blocks.getD i 0 = 0 then
          ((heaps.getD (i + 1) 0 - heaps.getD i 0) * 1024 * 1024) / 1
        else
          ((heaps.getD (i + 1) 0 - heaps.getD i 0) * 1024 * 1024) /
            (blocks.getD (i + 1) 0 - blocks.getD i 0))) ∧
    (0 < blocks.length →
      (bytes_per_block blocks heaps).getD 0 0 =
        heaps.getD 0 0 * 1024 * 1024 / replaceZeroOne (blocks.getD 0 0)) := by
  have hblen : (bytes_per_block blocks heaps).length = blocks.length := by
    simp [bytes_per_block, diff_fillna_length, hlen]
  refine ⟨hblen, ?_, ?_⟩
  · intro i hi
    have hih : i + 1 < heaps.length := hlen ▸ hi
    have hzip : i + 1 < (bytes_per_block blocks heaps).length := hblen ▸ hi
    have hdh : i + 1 < (diff_fillna heaps).length := by
      rw [diff_fillna_length]; exact hih
    have hdb : i + 1 < (diff_fillna blocks).length := by
      rw [diff_fillna_length]; exact hi
    rw [List.getD_eq_getElem _ _ hzip]
    simp only [bytes_per_block]
    rw [List.getElem_zipWith]
    rw [← List.getD_eq_getElem (diff_fillna heaps) 0 hdh,
      ← List.getD_eq_getElem (diff_fillna blocks) 0 hdb]
    rw [diff_fillna_getD_succ heaps i hih, diff_fillna_getD_succ blocks i hi]
    simp only [replaceZeroOne]
    split <;> simp_all
  · intro h0
    have h0h : 0 < heaps.length := hlen ▸ h0
    have hzip : 0 < (bytes_per_block blocks heaps).length := hblen ▸ h0
    have hdh : 0 < (diff_fillna heaps).length := by
      rw [diff_fillna_length]; exact h0h
    have hdb : 0 < (diff_fillna blocks).length := by
      rw [diff_fillna_length]; exact h0
    rw [List.getD_eq_getElem _ _ hzip]
    simp only [bytes_per_block]
    rw [List.getElem_zipWith]
    rw [← List.getD_eq_getElem (diff_fillna heaps) 0 hdh,
      ← List.getD_eq_getElem (diff_fillna blocks) 0 hdb]
    rw [diff_fillna_getD_zero heaps h0h, diff_fillna_getD_zero blocks h0]

/-- Witness for C4 on the spec's literal series: independent `[0, 10]`,
dependent `[100, 200]` gives a pair delta of `100 * 2^20 / 10 = 10485760`
bytes per unit, and on `[5, 5]` with `[50, 80]` the zero independent delta
falls back to divisor 1, yielding `30 * 2^20`, not a division fault. -/
theorem bytes_per_block_spec_witness :
    (bytes_per_block [0, 10] [100, 200]).getD 1 0 = 10485760 ∧
    (bytes_per_block [5, 5] [50, 80]).getD 1 0 = 31457280 := by
  have h1 := (bytes_per_block_spec [0, 10] [100, 200] rfl).2.1 0 (by norm_num)
  have h2 := (bytes_per_block_spec [5, 5] [50, 80] rfl).2.1 0 (by norm_num)
  norm_num at h1 h2
  exact ⟨h1, h2⟩

/-- The average unit cost of plot-storage-virtualization.py:175-180:
`(heap_mb.iloc[-1] - heap_mb.iloc[0]) * 1024 * 1024` divided by
`actual_blocks.iloc[-1] - actual_blocks.iloc[0]` when that block delta is
positive, else the HDFS default estimate of 150 bytes per block. -/
def bytes_per_block_avg (blocks heaps : List ℚ) : ℚ :=
  if 0 < blocks.getLastD 0 - blocks.headD 0 then
    (heaps.getLastD 0 - heaps.headD 0) * 1024 * 1024 /
      (blocks.getLastD 0 - blocks.headD 0)
  else 150

/-- The capacity projection loop of plot-storage-virtualization.py:173-186:
for tables with more than one row, `int((heap_gb * 1024**3) / bytes_per_block_avg)`
for each heap budget in 4/8/16/32/64 GiB (`int()` truncates toward zero);
a zero average unit cost would raise ZeroDivisionError in the float division. -/
def capacity_projections (blocks heaps : List ℚ) : Except String (List (ℕ × ℤ)) :=
  if 1 < blocks.length then
    if bytes_per_block_avg blocks heaps = 0 then .error "ZeroDivisionError"
    else .ok ([4, 8, 16, 32, 64].map
      (fun gb => (gb, pyTrunc ((gb : ℚ) * 1024 * 1024 * 1024 / bytes_per_block_avg blocks heaps))))
  else .ok []

/-- A nonnegative rational truncates to its floor. -/
theorem pyTrunc_eq_floor_of_nonneg (q : ℚ) (h : 0 ≤ q) : pyTrunc q = ⌊q⌋ :=
  if_pos h

/-- Counterexample for C5: on the two-row table with `actual_blocks = [0, 1]`
and `heap_mb = [100, 97]` (heap shrinking while blocks grow), the average
unit cost is negative and the code's `int()` truncation yields −1365 for the
4 GiB budget, while `floor(budget / average_unit_cost)` is −1366. -/
theorem capacity_projections_not_floor_cex :
    capacity_projections [0, 1] [100, 97] =
      .ok [(4, -1365), (8, -2730), (16, -5461), (32, -10922), (64, -21845)] ∧
    (⌊(4 : ℚ) * 1024 * 1024 * 1024 /
        ((((97 : ℚ) - 100) * 1024 * 1024) / ((1 : ℚ) - 0))⌋ : ℤ) = -1366 := by
  constructor
  · simp only [capacity_projections, bytes_per_block_avg]
    norm_num [pyTrunc]
    refine ⟨?_, ?_, ?_, ?_, ?_⟩ <;> rw [Int.ceil_neg] <;> norm_num
  · norm_num

/-- C5 (amended): for every table with at least two rows on which the
projection loop completes, each budget in 4/8/16/32/64 GiB is mapped to the
truncation toward zero of `budget / average_unit_cost` — which equals
`floor(budget / average_unit_cost)` whenever the average unit cost is
positive — and the average unit cost falls back to the default 150 bytes
per block whenever the independent values have zero (or negative) span. -/
theorem capacity_projections_spec (blocks heaps : List ℚ)
    (_hlen : blocks.length = heaps.length) (h2 : 1 < blocks.length)
    (res : List (ℕ × ℤ)) (hres : capacity_projections blocks heaps = .ok res) :
    (blocks.getLastD 0 - blocks.headD 0 = 0 → bytes_per_block_avg blocks heaps = 150) ∧
    res = [4, 8, 16, 32, 64].map
      (fun gb : ℕ => (gb, pyTrunc ((gb : ℚ) * 1024 * 1024 * 1024 / bytes_per_block_avg blocks heaps))) ∧
    (0 < bytes_per_block_avg blocks heaps →
      ∀ p ∈ res, p.2 = ⌊(p.1 : ℚ) * 1024 * 1024 * 1024 / bytes_per_block_avg blocks heaps⌋) := by
  have hzero : blocks.getLastD 0 - blocks.headD 0 = 0 →
      bytes_per_block_avg blocks heaps = 150 := by
    intro h
    rw [bytes_per_block_avg, if_neg]
    rw [h]
    exact lt_irrefl 0
  rw [capacity_projections, if_pos h2] at hres
  by_cases hb0 : bytes_per_block_avg blocks heaps = 0
  · rw [if_pos hb0] at hres
    cases hres
  · rw [if_neg hb0] at hres
    cases hres
    refine ⟨hzero, rfl, ?_⟩
    intro hpos p hp
    simp only [List.map_cons, List.map_nil, List.mem_cons, List.not_mem_nil, or_false] at hp
    rcases hp with rfl | rfl | rfl | rfl | rfl <;>
      exact pyTrunc_eq_floor_of_nonneg _
        (le_of_lt (div_pos (by norm_num) hpos))

/-- Witness for C5 (amended) on `actual_blocks = [0, 1000]`,
`heap_mb = [100, 200]`: the average cost is positive and every projection
is the floor of its budget over the average cost. -/
theorem capacity_projections_spec_witness :
    capacity_projections [0, 1000] [100, 200] =
      .ok [(4, 40960), (8, 81920), (16, 163840), (32, 327680), (64, 655360)] ∧
    (0 < bytes_per_block_avg [0, 1000] [100, 200] →
      ∀ p ∈ [((4 : ℕ), (40960 : ℤ)), (8, 81920), (16, 163840), (32, 327680), (64, 655360)],
        p.2 = ⌊(p.1 : ℚ) * 1024 * 1024 * 1024 / bytes_per_block_avg [0, 1000] [100, 200]⌋) := by
  have hres : capacity_projections [0, 1000] [100, 200] =
      .ok [(4, 40960), (8, 81920), (16, 163840), (32, 327680), (64, 655360)] := by
    simp only [capacity_projections, bytes_per_block_avg]
    norm_num [pyTrunc]
  have h := capacity_projections_spec [0, 1000] [100, 200] rfl (by norm_num) _ hres
  have h3 := h.2.2
  have heq : ([4, 8, 16, 32, 64].map
      (fun gb : ℕ => (gb, pyTrunc ((gb : ℚ) * 1024 * 1024 * 1024 /
        bytes_per_block_avg [0, 1000] [100, 200])))) =
      [((4 : ℕ), (40960 : ℤ)), (8, 81920), (16, 163840), (32, 327680), (64, 655360)] := by
    simp only [bytes_per_block_avg]
    norm_num [pyTrunc]
  rw [h.2.1] at h3
  rw [heq] at h3
  exact ⟨hres, h3⟩

/-- pandas `Series.idxmax` over a column, with its maximum value: scans the
column keeping the first occurrence of the running maximum (a later equal
value never replaces the current index). -/
def idxmaxPair : List ℚ → Option (ℕ × ℚ)
  | [] => none
  | x :: xs =>
    match idxmaxPair xs with
    | none => some (0, x)
    | some (j, v) => if v > x then some (j + 1, v) else some (0, x)

/-- pandas `Series.idxmin` over a column, with its minimum value;
ties keep the first occurrence. -/
def idxminPair : List ℚ → Option (ℕ × ℚ)
  | [] => none
  | x :: xs =>
    match idxminPair xs with
    | none => some (0, x)
    | some (j, v) => if v < x then some (j + 1, v) else some (0, x)

/-- `optimal_idx = df['write_throughput_mbps'].idxmax()` of
plot-storage-virtualization.py:84. -/
def optimal_storage_dirs_idx (write_throughput_mbps : List ℚ) : Option ℕ :=
  (idxmaxPair write_throughput_mbps).map Prod.fst

/-- `min_idx = df['runtime_seconds'].idxmin()` of
plot-blocksize-results.py:121. -/
def optimal_blocksize_idx (runtime_seconds : List ℚ) : Option ℕ :=
  (idxminPair runtime_seconds).map Prod.fst

theorem idxmaxPair_none (xs : List ℚ) : idxmaxPair xs = none ↔ xs = [] := by
  cases xs with
  | nil => simp [idxmaxPair]
  | cons x l =>
    simp only [idxmaxPair]
    cases idxmaxPair l with
    | none => simp
    | some p =>
      rcases p with ⟨j, v⟩
      by_cases h : v > x <;> simp [h]

theorem idxminPair_none (xs : List ℚ) : idxminPair xs = none ↔ xs = [] := by
  cases xs with
  | nil => simp [idxminPair]
  | cons x l =>
    simp only [idxminPair]
    cases idxminPair l with
    | none => simp
    | some p =>
      rcases p with ⟨j, v⟩
      by_cases h : v < x <;> simp [h]

theorem idxmaxPair_spec (xs : List ℚ) (j : ℕ) (v : ℚ)
    (h : idxmaxPair xs = some (j, v)) :
    j < xs.length ∧ xs.getD j 0 = v ∧
    (∀ k, k < xs.length → xs.getD k 0 ≤ v) ∧
    (∀ k, k < j → xs.getD k 0 < v) := by
  induction xs generalizing j v with
  | nil => cases h
  | cons x l ih =>
    rw [idxmaxPair] at h
    rcases ht : idxmaxPair l with _ | ⟨j', v'⟩
    · rw [ht] at h
      cases h
      have hl : l = [] := (idxmaxPair_none l).mp ht
      subst hl
      refine ⟨by simp, by simp, ?_, by omega⟩
      intro k hk
      have hk0 : k = 0 := by simpa using hk
      subst hk0
      simp
    · rw [ht] at h
      dsimp only at h
      rcases ih j' v' ht with ⟨ih1, ih2, ih3, ih4⟩
      by_cases hv : v' > x
      · rw [if_pos hv] at h
        cases h
        refine ⟨by simpa using ih1, by simpa using ih2, ?_, ?_⟩
        · intro k hk
          cases k with
          | zero => simpa using le_of_lt hv
          | succ k => simpa using ih3 k (by simpa using hk)
        · intro k hk
          cases k with
          | zero => simpa using hv
          | succ k => simpa using ih4 k (by omega)
      · rw [if_neg hv] at h
        cases h
        refine ⟨by simp, by simp, ?_, by omega⟩
        intro k hk
        cases k with
        | zero => simp
        | succ k =>
          have := ih3 k (by simpa using hk)
          have hvx : v' ≤ x := le_of_not_lt hv
          simpa using le_trans this hvx

theorem idxminPair_spec (xs : List ℚ) (j : ℕ) (v : ℚ)
    (h : idxminPair xs = some (j, v)) :
    j < xs.length ∧ xs.getD j 0 = v ∧
    (∀ k, k < xs.length → v ≤ xs.getD k 0) ∧
    (∀ k, k < j → v < xs.getD k 0) := by
  induction xs generalizing j v with
  | nil => cases h
  | cons x l ih =>
    rw [idxminPair] at h
    rcases ht : idxminPair l with _ | ⟨j', v'⟩
    · rw [ht] at h
      cases h
      have hl : l = [] := (idxminPair_none l).mp ht
      subst hl
      refine ⟨by simp, by simp, ?_, by omega⟩
      intro k hk
      have hk0 : k = 0 := by simpa using hk
      subst hk0
      simp
    · rw [ht] at h
      dsimp only at h
      rcases ih j' v' ht with ⟨ih1, ih2, ih3, ih4⟩
      by_cases hv : v' < x
      · rw [if_pos hv] at h
        cases h
        refine ⟨by simpa using ih1, by simpa using ih2, ?_, ?_⟩
        · intro k hk
          cases k with
          | zero => simpa using le_of_lt hv
          | succ k => simpa using ih3 k (by simpa using hk)
        · intro k hk
          cases k with
          | zero => simpa using hv
          | succ k => simpa using ih4 k (by omega)
      · rw [if_neg hv] at h
        cases h
        refine ⟨by simp, by simp, ?_, by omega⟩
        intro k hk
        cases k with
        | zero => simp
        | succ k =>
          have := ih3 k (by simpa using hk)
          have hvx : x ≤ v' := le_of_not_lt hv
          simpa using le_trans hvx this

/-- C8: optimal-configuration selection returns the index of the row with
the extreme objective value — the maximum of `write_throughput_mbps` for
storage-dir scaling, the minimum of `runtime_seconds` for the block-size
benchmark — and when several rows share that extreme value the returned
index is the first such row in table order (every earlier row is strictly
worse). -/
theorem optimal_idx_spec (thr rts : List ℚ) (i j : ℕ)
    (hmax : optimal_storage_dirs_idx thr = some i)
    (hmin : optimal_blocksize_idx rts = some j) :
    (i < thr.length ∧
      (∀ k, k < thr.length → thr.getD k 0 ≤ thr.getD i 0) ∧
      (∀ k, k < i → thr.getD k 0 < thr.getD i 0)) ∧
    (j < rts.length ∧
      (∀ k, k < rts.length → rts.getD j 0 ≤ rts.getD k 0) ∧
      (∀ k, k < j → rts.getD j 0 < rts.getD k 0)) := by
  rcases Option.map_eq_some'.mp hmax with ⟨⟨i', v⟩, hi, hieq⟩
  rcases Option.map_eq_some'.mp hmin with ⟨⟨j', w⟩, hj, hjeq⟩
  cases hieq
  cases hjeq
  rcases idxmaxPair_spec thr _ _ hi with ⟨h1, h2, h3, h4⟩
  rcases idxminPair_spec rts _ _ hj with ⟨g1, g2, g3, g4⟩
  refine ⟨⟨h1, ?_, ?_⟩, g1, ?_, ?_⟩
  · intro k hk
    rw [h2]
    exact h3 k hk
  · intro k hk
    rw [h2]
    exact h4 k hk
  · intro k hk
    rw [g2]
    exact g3 k hk
  · intro k hk
    rw [g2]
    exact g4 k hk

/-- Witness for C8: on throughput `[1, 3, 3, 2]` the maximum 3 is first
attained at index 1, and on runtimes `[5, 2, 2, 9]` the minimum 2 is first
attained at index 1; earlier rows are strictly worse. -/
theorem optimal_idx_spec_witness :
    optimal_storage_dirs_idx [1, 3, 3, 2] = some 1 ∧
    optimal_blocksize_idx [5, 2, 2, 9] = some 1 ∧
    ((1 < ([1, 3, 3, 2] : List ℚ).length ∧
      (∀ k, k < ([1, 3, 3, 2] : List ℚ).length →
        ([1, 3, 3, 2] : List ℚ).getD k 0 ≤ ([1, 3, 3, 2] : List ℚ).getD 1 0) ∧
      (∀ k, k < 1 → ([1, 3, 3, 2] : List ℚ).getD k 0 < ([1, 3, 3, 2] : List ℚ).getD 1 0)) ∧
    (1 < ([5, 2, 2, 9] : List ℚ).length ∧
      (∀ k, k < ([5, 2, 2, 9] : List ℚ).length →
        ([5, 2, 2, 9] : List ℚ).getD 1 0 ≤ ([5, 2, 2, 9] : List ℚ).getD k 0) ∧
      (∀ k, k < 1 → ([5, 2, 2, 9] : List ℚ).getD 1 0 < ([5, 2, 2, 9] : List ℚ).getD k 0))) := by
  have hmax : optimal_storage_dirs_idx [1, 3, 3, 2] = some 1 := by
    simp only [optimal_storage_dirs_idx, idxmaxPair]
    norm_num
  have hmin : optimal_blocksize_idx [5, 2, 2, 9] = some 1 := by
    simp only [optimal_blocksize_idx, idxminPair]
    norm_num
  exact ⟨hmax, hmin, optimal_idx_spec _ _ _ _ hmax hmin⟩

/-- The parsed combined results of plot-multinode-results.py:
`{node_count: [(block_size_human, runtime), ...]}` in CSV insertion order. -/
abbrev MNResults := List (ℤ × List (String × ℚ))

/-- The artifacts of one plotting run of plot-multinode-results.py:
the four charts and the diagnostic messages printed to the console. -/
inductive MNArtifact where
  | combinedChart (series : List (ℤ × List ℚ))
  | perNodeChart (n : ℤ)
  | heatmapChart
  | speedupChart (series : List (ℤ × List ℚ))
  | info (s : String)
deriving DecidableEq, Repr

/-- Insert one group into a key-sorted list (`sorted(results.items())`). -/
def insertSortedMN (p : ℤ × List (String × ℚ)) : MNResults → MNResults
  | [] => [p]
  | q :: qs => if p.1 ≤ q.1 then p :: q :: qs else q :: insertSortedMN p qs

/-- Python `sorted(results.items())`: the groups ordered by node count. -/
def sortedItems (l : MNResults) : MNResults := l.foldr insertSortedMN []

/-- A Python for-loop collecting one value per element, raising on the
first failure (used for the speedup list comprehensions). -/
def mapME {α β : Type} (f : α → Except String β) : List α → Except String (List β)
  | [] => .ok []
  | a :: l =>
    match f a with
    | .error e => .error e
    | .ok b => (mapME f l).map (fun t => b :: t)

/-- Lookup in the dict comprehension `{d[0]: d[1] for d in results[2]}`:
Python keeps the last binding of a duplicated key, hence lookup on the
reversed pair list. -/
def dictLookup (pairs : List (String × ℚ)) (k : String) : Option ℚ :=
  pairs.reverse.lookup k

/-- `plot_combined` of plot-multinode-results.py:69-103: crashes on an
empty dict (line 90 takes the first value), otherwise draws one line per
node count in sorted order. -/
def plot_combined (results : MNResults) : Except String (List MNArtifact) :=
  if results.isEmpty then .error "IndexError"
  else .ok [.combinedChart ((sortedItems results).map (fun g => (g.1, g.2.map Prod.snd)))]

/-- `plot_individual` of plot-multinode-results.py:106-136: one bar chart
per node count, in sorted order. -/
def plot_individual (results : MNResults) : List MNArtifact :=
  (sortedItems results).map (fun g => .perNodeChart g.1)

/-- `plot_heatmap` of plot-multinode-results.py:139-173: the matrix is as
wide as the first group's series (line 143, insertion order); a longer
later group overruns the row (IndexError at line 149). -/
def plot_heatmap (results : MNResults) : Except String (List MNArtifact) :=
  match results with
  | [] => .error "IndexError"
  | g0 :: _ =>
    if results.all (fun g => g.2.length ≤ g0.2.length) then .ok [.heatmapChart]
    else .error "IndexError"

/-- One speedup sample of plot-multinode-results.py:194:
`baseline[d[0]] / d[1]` — a missing baseline key raises KeyError (the
subscript is evaluated before the division), and a zero runtime then
raises ZeroDivisionError in the division. -/
def speedupRow (base : List (String × ℚ)) (d : String × ℚ) : Except String ℚ :=
  match dictLookup base d.1 with
  | some b => if d.2 = 0 then .error "ZeroDivisionError" else .ok (b / d.2)
  | none => .error "KeyError"

/-- `plot_speedup` of plot-multinode-results.py:176-220: without a 2-node
group it prints a diagnostic and returns; otherwise it computes
`baseline[block_size] / runtime` for every row of every non-baseline group
in sorted order. -/
def plot_speedup (results : MNResults) : Except String (List MNArtifact) :=
  match results.lookup 2 with
  | none => .ok [.info "No 2-node baseline, skipping speedup chart"]
  | some base =>
    (mapME (fun g => (mapME (speedupRow base) g.2).map (fun ss => (g.1, ss)))
      ((sortedItems results).filter (fun g => g.1 ≠ 2))).map
      (fun series => [.speedupChart series])

/-- The plot-generation block of `main` (plot-multinode-results.py:256-259):
all four plot functions in order, aborting on the first exception. -/
def mn_plots (results : MNResults) : Except String (List MNArtifact) :=
  match plot_combined results with
  | .error e => .error e
  | .ok a =>
    match plot_heatmap results with
    | .error e => .error e
    | .ok c =>
      match plot_speedup results with
      | .error e => .error e
      | .ok d => .ok (a ++ plot_individual results ++ c ++ d)

/-- `main` of plot-multinode-results.py: exits early on an empty result
set (line 249-250), otherwise runs the four plot functions. -/
def mn_main (results : MNResults) : Except String (List MNArtifact) :=
  if results.isEmpty then .error "No valid results found in CSV"
  else mn_plots results

theorem mem_insertSortedMN (p a : ℤ × List (String × ℚ)) (l : MNResults) :
    a ∈ insertSortedMN p l ↔ a = p ∨ a ∈ l := by
  induction l with
  | nil => simp [insertSortedMN]
  | cons q qs ih =>
    rw [insertSortedMN]
    by_cases h : p.1 ≤ q.1
    · rw [if_pos h]
      simp
    · rw [if_neg h]
      simp [ih]
      tauto

theorem mem_sortedItems (a : ℤ × List (String × ℚ)) (l : MNResults) :
    a ∈ sortedItems l ↔ a ∈ l := by
  induction l with
  | nil => simp [sortedItems]
  | cons q qs ih =>
    rw [sortedItems, List.foldr_cons, mem_insertSortedMN]
    rw [sortedItems] at ih
    simp [ih]

/-- C6 (amended): for every non-empty multi-node result set without a
2-node group in which no group's series is longer than the first group's
(the shape a complete sweep produces, and the shape the heatmap matrix
construction requires), the run completes: the combined chart, all
per-node charts and the heatmap are produced, the speedup chart is not,
and the skip is reported by the diagnostic message. Ragged baseline-absent
sets instead fail in the heatmap (see the counterexample). -/
theorem multinode_no_baseline_graceful (results : MNResults)
    (g0 : ℤ × List (String × ℚ)) (rest : MNResults)
    (hne : results = g0 :: rest)
    (hbase : results.lookup 2 = none)
    (hwf : ∀ g ∈ results, g.2.length ≤ g0.2.length) :
    ∃ arts, mn_main results = .ok arts ∧
      (MNArtifact.info "No 2-node baseline, skipping speedup chart") ∈ arts ∧
      (∀ s, MNArtifact.speedupChart s ∉ arts) ∧
      (∃ cs, MNArtifact.combinedChart cs ∈ arts) ∧
      MNArtifact.heatmapChart ∈ arts ∧
      (∀ g ∈ results, MNArtifact.perNodeChart g.1 ∈ arts) := by
  have hne' : results.isEmpty = false := by
    rw [hne]
    rfl
  have hcomb : plot_combined results =
      .ok [.combinedChart ((sortedItems results).map (fun g => (g.1, g.2.map Prod.snd)))] := by
    rw [plot_combined, hne']
    simp
  have hheat : plot_heatmap results = .ok [.heatmapChart] := by
    rw [hne, plot_heatmap, if_pos]
    rw [List.all_eq_true]
    intro g hg
    exact decide_eq_true (hwf g (hne ▸ hg))
  have hspeed : plot_speedup results =
      .ok [.info "No 2-node baseline, skipping speedup chart"] := by
    rw [plot_speedup, hbase]
  refine ⟨[MNArtifact.combinedChart
      ((sortedItems results).map (fun g => (g.1, g.2.map Prod.snd)))] ++
      plot_individual results ++ [MNArtifact.heatmapChart] ++
      [MNArtifact.info "No 2-node baseline, skipping speedup chart"],
      ?_, ?_, ?_, ?_, ?_, ?_⟩
  · rw [mn_main, hne']
    simp only [Bool.false_eq_true, if_false]
    rw [mn_plots, hcomb, hheat, hspeed]
  · simp
  · intro s
    simp [plot_individual]
  · exact ⟨(sortedItems results).map (fun g => (g.1, g.2.map Prod.snd)), by simp⟩
  · simp
  · intro g hg
    have hmem : MNArtifact.perNodeChart g.1 ∈ plot_individual results := by
      rw [plot_individual]
      exact List.mem_map_of_mem _ ((mem_sortedItems g results).mpr hg)
    simp [hmem]

/-- Witness for C6: the one-group result set `{4: [("A", 10)]}` has no
2-node baseline; the run succeeds with the three chart kinds, the 4-node
chart, the diagnostic, and no speedup chart. -/
theorem multinode_no_baseline_graceful_witness :
    ([((4 : ℤ), [("A", (10 : ℚ))])] : MNResults).lookup 2 = none ∧
    (∃ arts, mn_main [((4 : ℤ), [("A", (10 : ℚ))])] = .ok arts ∧
      (MNArtifact.info "No 2-node baseline, skipping speedup chart") ∈ arts ∧
      (∀ s, MNArtifact.speedupChart s ∉ arts) ∧
      (∃ cs, MNArtifact.combinedChart cs ∈ arts) ∧
      MNArtifact.heatmapChart ∈ arts ∧
      (∀ g ∈ ([((4 : ℤ), [("A", (10 : ℚ))])] : MNResults),
        MNArtifact.perNodeChart g.1 ∈ arts)) :=
  ⟨rfl,
    multinode_no_baseline_graceful _ _ _ rfl rfl
      (by intro g hg; rcases List.mem_singleton.mp hg with rfl; exact le_rfl)⟩

/-- Counterexample for C6: the baseline-absent ragged result set
`{4: [("A", 10)], 8: [("A", 10), ("B", 20)]}` — reachable because
`read_combined_results` drops unparseable rows group by group — sizes the
heatmap matrix by the first group (one column), so the longer 8-node group
overruns it (IndexError at plot-multinode-results.py:149): the run fails
and neither the heatmap nor the skip diagnostic is produced, refuting the
claim as stated. -/
theorem multinode_ragged_heatmap_cex :
    ([((4 : ℤ), [("A", (10 : ℚ))]), (8, [("A", 10), ("B", 20)])] : MNResults).lookup 2 =
      none ∧
    mn_main [((4 : ℤ), [("A", (10 : ℚ))]), (8, [("A", 10), ("B", 20)])] =
      .error "IndexError" :=
  ⟨rfl, rfl⟩

theorem mapME_ok_of_forall {α β : Type} (f : α → Except String β) (l : List α)
    (h : ∀ a ∈ l, ∃ b, f a = .ok b) :
    ∃ l', mapME f l = .ok l' := by
  induction l with
  | nil => exact ⟨[], rfl⟩
  | cons a l ih =>
    rcases h a (by simp) with ⟨b, hb⟩
    rcases ih (fun x hx => h x (by simp [hx])) with ⟨l', hl'⟩
    exact ⟨b :: l', by rw [mapME, hb, hl']; rfl⟩

theorem mapME_ok_mem {α β : Type} (f : α → Except String β) (l : List α)
    (l' : List β) (h : mapME f l = .ok l') :
    ∀ a ∈ l, ∃ b ∈ l', f a = .ok b := by
  induction l generalizing l' with
  | nil =>
    intro a ha
    cases ha
  | cons x l ih =>
    intro a ha
    rw [mapME] at h
    rcases hx : f x with e | b <;> rw [hx] at h
    · cases h
    · rcases ht : mapME f l with e | tail <;> rw [ht] at h
      · cases h
      · cases h
        rcases List.mem_cons.mp ha with rfl | ha
        · exact ⟨b, by simp, hx⟩
        · rcases ih tail ht a ha with ⟨b', hb', hfb'⟩
          exact ⟨b', by simp [hb'], hfb'⟩

theorem mapME_ok_length {α β : Type} (f : α → Except String β) (l : List α)
    (l' : List β) (h : mapME f l = .ok l') : l'.length = l.length := by
  induction l generalizing l' with
  | nil =>
    cases h
    rfl
  | cons x l ih =>
    rw [mapME] at h
    rcases hx : f x with e | b <;> rw [hx] at h
    · cases h
    · rcases ht : mapME f l with e | tail <;> rw [ht] at h
      · cases h
      · cases h
        simp [ih tail ht]

theorem mapME_ok_getD {α β : Type} (f : α → Except String β) (l : List α)
    (l' : List β) (da : α) (db : β) (h : mapME f l = .ok l') :
    ∀ i, i < l.length → f (l.getD i da) = .ok (l'.getD i db) := by
  induction l generalizing l' with
  | nil =>
    intro i hi
    cases hi
  | cons x l ih =>
    rw [mapME] at h
    rcases hx : f x with e | b <;> rw [hx] at h
    · cases h
    · rcases ht : mapME f l with e | tail <;> rw [ht] at h
      · cases h
      · cases h
        intro i hi
        cases i with
        | zero => simpa using hx
        | succ i => simpa using ih tail ht i (by simpa using hi)

/-- Counterexample for C10: on `{2: [("A", 100)], 4: [("A", 0)]}` every
non-baseline label occurs in the baseline, yet the zero runtime makes
`baseline["A"] / 0.0` raise ZeroDivisionError and abort speedup plotting,
so the label precondition alone does not yield the claimed quotients. -/
theorem speedup_zero_runtime_cex :
    (∀ g ∈ ([((2 : ℤ), [("A", (100 : ℚ))]), (4, [("A", 0)])] : MNResults), g.1 ≠ 2 →
      ∀ d ∈ g.2, (dictLookup [("A", (100 : ℚ))] d.1).isSome = true) ∧
    plot_speedup [((2 : ℤ), [("A", (100 : ℚ))]), (4, [("A", 0)])] =
      .error "ZeroDivisionError" := by
  constructor
  · intro g hg hne d hd
    rcases List.mem_cons.mp hg with rfl | hg
    · exact absurd rfl hne
    · rcases List.mem_cons.mp hg with rfl | hg
      · rcases List.mem_singleton.mp hd with rfl
        rfl
      · cases hg
  · rfl

/-- C10 (amended): when the 2-node baseline group is present, each speedup
sample is `baseline_runtime(block-size label) / row runtime`; under the
precondition that every non-baseline label occurs in the baseline dict and
every non-baseline runtime is nonzero, every lookup succeeds and the
speedup chart carries exactly those quotients — but on a result set whose
non-baseline group has a label absent from the baseline, the lookup raises
KeyError and speedup plotting aborts instead of skipping that row. -/
theorem speedup_lookup_spec :
    (∀ (results : MNResults) (base : List (String × ℚ)),
      results.lookup 2 = some base →
      (∀ g ∈ results, g.1 ≠ 2 → ∀ d ∈ g.2, (dictLookup base d.1).isSome = true) →
      (∀ g ∈ results, g.1 ≠ 2 → ∀ d ∈ g.2, d.2 ≠ 0) →
      ∃ series, plot_speedup results = .ok [.speedupChart series] ∧
        ∀ g ∈ results, g.1 ≠ 2 →
          ∃ vs, (g.1, vs) ∈ series ∧ vs.length = g.2.length ∧
            ∀ i, i < g.2.length →
              ∃ b, dictLookup base (g.2.getD i ("", 0)).1 = some b ∧
                vs.getD i 0 = b / (g.2.getD i ("", 0)).2) ∧
    plot_speedup [((2 : ℤ), [("A", (100 : ℚ))]), (4, [("B", 30)])] = .error "KeyError" := by
  constructor
  · intro results base hbase hall hnz
    have hgroups : ∀ g ∈ (sortedItems results).filter (fun g => g.1 ≠ 2),
        ∃ vs, mapME (speedupRow base) g.2 = .ok vs := by
      intro g hg
      rcases List.mem_filter.mp hg with ⟨hmem, hne2⟩
      have hmem' : g ∈ results := (mem_sortedItems g results).mp hmem
      have hne2' : g.1 ≠ 2 := by simpa using hne2
      apply mapME_ok_of_forall
      intro d hd
      rcases Option.isSome_iff_exists.mp (hall g hmem' hne2' d hd) with ⟨b, hb⟩
      refine ⟨b / d.2, ?_⟩
      rw [speedupRow, hb]
      dsimp only
      rw [if_neg (hnz g hmem' hne2' d hd)]
    have houter : ∀ g ∈ (sortedItems results).filter (fun g => g.1 ≠ 2),
        ∃ s, (fun g => (mapME (speedupRow base) g.2).map (fun ss => (g.1, ss))) g = .ok s := by
      intro g hg
      rcases hgroups g hg with ⟨vs, hvs⟩
      refine ⟨(g.1, vs), ?_⟩
      dsimp only
      rw [hvs]
      rfl
    rcases mapME_ok_of_forall _ _ houter with ⟨series, hseries⟩
    refine ⟨series, ?_, ?_⟩
    · rw [plot_speedup, hbase]
      dsimp only
      rw [hseries]
      rfl
    · intro g hgmem hgne
      have hgf : g ∈ (sortedItems results).filter (fun g => g.1 ≠ 2) :=
        List.mem_filter.mpr ⟨(mem_sortedItems g results).mpr hgmem, by simpa using hgne⟩
      rcases mapME_ok_mem _ _ _ hseries g hgf with ⟨s, hsmem, hfs⟩
      rcases hvs : mapME (speedupRow base) g.2 with e | vs <;> rw [hvs] at hfs
      · cases hfs
      · simp only [Except.map] at hfs
        cases hfs
        refine ⟨vs, hsmem, mapME_ok_length _ _ _ hvs, ?_⟩
        intro i hi
        have := mapME_ok_getD (speedupRow base) g.2 vs ("", 0) 0 hvs i hi
        rw [speedupRow] at this
        rcases hb : dictLookup base (g.2.getD i ("", 0)).1 with _ | b <;>
          rw [hb] at this
        · cases this
        · have hdmem : g.2.getD i ("", 0) ∈ g.2 := by
            rw [List.getD_eq_getElem _ _ hi]
            exact List.getElem_mem hi
          dsimp only at this
          rw [if_neg (hnz g hgmem hgne _ hdmem)] at this
          exact ⟨b, rfl, by injection this with h; exact h.symm⟩
  · rfl

/-- Witness for C10: on the result set `{2: [("A", 100)], 4: [("A", 60)]}`
every non-baseline label occurs in the baseline, so the speedup chart is
produced with sample `100 / 60`. -/
theorem speedup_lookup_spec_witness :
    ([((2 : ℤ), [("A", (100 : ℚ))]), (4, [("A", 60)])] : MNResults).lookup 2 =
      some [("A", (100 : ℚ))] ∧
    ∃ series,
      plot_speedup [((2 : ℤ), [("A", (100 : ℚ))]), (4, [("A", 60)])] =
        .ok [.speedupChart series] ∧
      ∀ g ∈ ([((2 : ℤ), [("A", (100 : ℚ))]), (4, [("A", 60)])] : MNResults), g.1 ≠ 2 →
        ∃ vs, (g.1, vs) ∈ series ∧ vs.length = g.2.length ∧
          ∀ i, i < g.2.length →
            ∃ b, dictLookup [("A", (100 : ℚ))] (g.2.getD i ("", 0)).1 = some b ∧
              vs.getD i 0 = b / (g.2.getD i ("", 0)).2 :=
  ⟨rfl,
    speedup_lookup_spec.1 [((2 : ℤ), [("A", (100 : ℚ))]), (4, [("A", 60)])]
      [("A", (100 : ℚ))] rfl
      (by
        intro g hg hne d hd
        rcases List.mem_cons.mp hg with rfl | hg
        · exact absurd rfl hne
        · rcases List.mem_cons.mp hg with rfl | hg
          · rcases List.mem_singleton.mp hd with rfl
            rfl
          · cases hg)
      (by
        intro g hg hne d hd
        rcases List.mem_cons.mp hg with rfl | hg
        · exact absurd rfl hne
        · rcases List.mem_cons.mp hg with rfl | hg
          · rcases List.mem_singleton.mp hd with rfl
            norm_num
          · cases hg)⟩

/-- A MemoryOverTime table as `plot_memory_monitor` sees it: the two heap
columns are always present for this kind; the `block_count` column is
optional. -/
structure MemDF where
  heap_used_mb : List ℚ
  heap_pct : List ℚ
  block_count : Option (List ℚ)
deriving DecidableEq, Repr

/-- The artifacts of `plot_memory_monitor`: the four panels and the saved
figure file. -/
inductive MemArtifact where
  | heapPanel
  | pctPanel
  | blockPanel
  | summaryText
  | savedFigure
deriving DecidableEq, Repr

/-- `plot_memory_monitor` of plot-storage-virtualization.py:217-287:
panels 1-2 always plot the heap columns; panel 3 plots `block_count` only
when the column exists (guard at line 249); but the summary text at lines
274-276 reads `df['block_count'].iloc[0]` and `.iloc[-1]` unconditionally,
so a missing column raises KeyError (and an empty one IndexError) before
the figure is saved at line 285-286. -/
def plot_memory_monitor (df : MemDF) : Except String (List MemArtifact) :=
  let panel3 : List MemArtifact :=
    match df.block_count with
    | some _ => [.blockPanel]
    | none => []
  match df.block_count with
  | none => .error "KeyError: block_count"
  | some bc =>
    if bc.isEmpty then .error "IndexError"
    else .ok ([.heapPanel, .pctPanel] ++ panel3 ++ [.summaryText, .savedFigure])

/-- C7 evaluation: on a MemoryOverTime table with heap data but no
`block_count` column, `plot_memory_monitor` raises KeyError in the summary
block and produces no artifacts at all — the run aborts before the figure
is saved, instead of rendering the heap panels and omitting only the
block-count panel; with the column present the same table succeeds. -/
theorem plot_memory_monitor_missing_block_count :
    plot_memory_monitor ⟨[100, 120], [40, 50], none⟩ = .error "KeyError: block_count" ∧
    plot_memory_monitor ⟨[100, 120], [40, 50], some [10, 20]⟩ =
      .ok [.heapPanel, .pctPanel, .blockPanel, .summaryText, .savedFigure] := by
  exact ⟨rfl, rfl⟩
